import Mathlib

/-!
Verification of the staged transaction workflow engine of the striim/nahmii CLI.

The development shallowly embeds the orchestration logic of the repository:

* `src/commands/claim-commands/nii.js` — the NII claim workflow (release,
  clear-allowance, approve, complete-deposit), its failure policy, its output
  aggregation and its cleanup block;
* the fees claim command (second document of `src/commands/pay.spec.js`) —
  the gas/timeout validators and the block/accrual range normalizer;
* `src/commands/pay.js` and the legacy pay handler (`src/unnamed/part_000`) —
  the amount normalization paths.

External calls (balance reads, transaction submissions, confirmation waits)
are modelled by an environment record that fixes the outcome of each call the
handler makes, in program order.  Machine integers are modelled as `Nat`/`Int`;
the legacy handler's IEEE-754 double arithmetic is modelled over `ℚ` by
rounding to 53 significant bits (round to nearest, ties to even), which is
exact for the magnitudes involved (no overflow or subnormals).
-/

namespace StriimCli

instance {ε α : Type} [DecidableEq ε] [DecidableEq α] : DecidableEq (Except ε α) := fun x y =>
  match x, y with
  | Except.ok a, Except.ok b =>
      if h : a = b then isTrue (by rw [h]) else isFalse (by simp [h])
  | Except.error a, Except.error b =>
      if h : a = b then isTrue (by rw [h]) else isFalse (by simp [h])
  | Except.ok _, Except.error _ => isFalse (by simp)
  | Except.error _, Except.ok _ => isFalse (by simp)

/-! ## Basic data shapes (spec §3, nii.js lines 162-173) -/

/-- The steps of the NII claim workflow, named after the on-chain calls the
handler submits (nii.js lines 56, 80, 93, 108). -/
inductive Step
  | release
  | clear
  | approve
  | complete
deriving DecidableEq, Repr

/-- Opaque transaction handle returned on submission (`TransactionHandle`). -/
structure TxHandle where
  hash : String
deriving DecidableEq, Repr

/-- Raw confirmation record returned by `getTransactionConfirmation`
(`ConfirmationRecord` of the spec). -/
structure ConfRecord where
  transactionHash : String
  blockNumber : Nat
  gasUsed : Nat
deriving DecidableEq, Repr

/-- Public receipt shape produced by `reduceReceipt` (nii.js lines 167-172). -/
structure Receipt where
  transactionHash : String
  blockNumber : Nat
  gasUsed : String
  href : String
deriving DecidableEq, Repr

/-- Gas options `{gasLimit, gasPrice}` built at nii.js line 37 / fees line 253.
`gasLimit = none` models the JavaScript `NaN` that `parseInt` can return. -/
structure GasOpts where
  gasLimit : Option Int
  gasPrice : Int
deriving DecidableEq, Repr

/-- `reduceReceipt` (nii.js lines 162-173): a missing record (JS `undefined` /
`null`) maps to `null`; otherwise the record is reshaped, `gasUsed` passed
through as a base-10 string and an explorer URL synthesized. -/
def reduceReceipt : Option ConfRecord → Option Receipt
  | none => none
  | some r =>
      some { transactionHash := r.transactionHash
             blockNumber := r.blockNumber
             gasUsed := toString r.gasUsed
             href := "https://ropsten.etherscan.io/tx/" ++ r.transactionHash }

/-- Drop trailing `'0'` characters. -/
def trimZeros (l : List Char) : List Char :=
  (l.reverse.dropWhile (fun c => c = '0')).reverse

/-- Modelled from the spec: `ethers.utils.formatUnits(value, decimals)` (the
sdk is not part of the repository source).  It renders a base-unit integer as
a decimal string with the given number of decimals, trailing fractional zeros
trimmed but at least one fractional digit kept. -/
def formatUnits (value : Nat) (decimals : Nat) : String :=
  let whole := value / 10 ^ decimals
  let frac := value % 10 ^ decimals
  let fracDigits := toString frac
  let padded := String.mk (List.replicate (decimals - fracDigits.length) '0') ++ fracDigits
  let trimmed := trimZeros padded.data
  toString whole ++ "." ++ String.mk (if trimmed.isEmpty then ['0'] else trimmed)

/-! ## The environment: outcome of each external call of the nii handler -/

/-- Outcome of every external call the nii.js handler performs, in program
order.  Each field models the result of the corresponding `await`:
a rejected promise is `Except.error` with the error message. -/
structure Env where
  /-- line 50: opening `niiContract.balanceOf` read. -/
  bal0Read : Except String Nat
  /-- line 56: `revenueTokenManager.release(period - 1, options)`. -/
  releaseTx : Except String TxHandle
  /-- line 60: confirmation wait for the release transaction. -/
  releaseConfirm : Except String ConfRecord
  /-- line 68: `balanceOf` re-read after the release phase. -/
  bal1Read : Except String Nat
  /-- line 72: `wallet.getDepositAllowance('NII')`. -/
  allowanceRead : Except String Nat
  /-- line 80: `wallet.approveTokenDeposit(0, 'NII', options)` (clear). -/
  clearTx : Except String TxHandle
  /-- line 84: confirmation wait for the clear transaction. -/
  clearConfirm : Except String ConfRecord
  /-- line 93: `wallet.approveTokenDeposit(amount, 'NII', options)`. -/
  approveTx : Except String TxHandle
  /-- line 97: confirmation wait for the approval transaction. -/
  approveConfirm : Except String ConfRecord
  /-- line 108: `wallet.completeTokenDeposit(amount, 'NII', options)`. -/
  completeTx : Except String TxHandle
  /-- line 112: confirmation wait for the completion transaction. -/
  completeConfirm : Except String ConfRecord
  /-- line 126: closing `balanceOf` read inside the `finally` block. -/
  bal2Read : Except String Nat
deriving DecidableEq, Repr

/-- Result of running the `try` block (nii.js lines 46-119). -/
structure TryOut where
  /-- Transactions submitted, in submission order (a submission whose call
  rejects is still an attempted submission). -/
  steps : List Step
  /-- The options value passed to each submission, in order. -/
  optsUsed : List GasOpts
  /-- Amount strings passed to `approveTokenDeposit` at line 93. -/
  approveAmounts : List String
  /-- Amount strings passed to `completeTokenDeposit` at line 108. -/
  completeAmounts : List String
  /-- The JSON report printed at line 118, if reached. -/
  output : Option (List (Option Receipt))
  /-- Error escaping the `try` block, if any. -/
  err : Option String
deriving DecidableEq, Repr

/-- Result of the whole handler run (after `catch` and `finally`). -/
structure Trace where
  steps : List Step
  optsUsed : List GasOpts
  approveAmounts : List String
  completeAmounts : List String
  output : Option (List (Option Receipt))
  errorMsg : Option String
  /-- Number of `provider.stopUpdate()` calls performed. -/
  stopUpdates : Nat
deriving DecidableEq, Repr

/-- nii.js lines 53-66: the release phase's receipt.  Failures of the release
submission or confirmation are swallowed by the inner `catch`, leaving
`releaseReceipt` undefined. -/
def releaseRcd (e : Env) : Option ConfRecord :=
  match e.releaseTx, e.releaseConfirm with
  | Except.ok _, Except.ok r => some r
  | _, _ => none

/-- nii.js lines 107-118: submit `completeTokenDeposit`, await confirmation,
then print the three-slot report. -/
def completeThen (opts : GasOpts) (e : Env)
    (releaseReceipt approveReceipt : Option ConfRecord) (niiBalance : Nat)
    (steps : List Step) (optsU : List GasOpts) (appAmts : List String) : TryOut :=
  let amt := formatUnits niiBalance 15
  match e.completeTx with
  | Except.error m =>
      ⟨steps ++ [Step.complete], optsU ++ [opts], appAmts, [amt], none, some m⟩
  | Except.ok _ =>
      match e.completeConfirm with
      | Except.error m =>
          ⟨steps ++ [Step.complete], optsU ++ [opts], appAmts, [amt], none, some m⟩
      | Except.ok r =>
          ⟨steps ++ [Step.complete], optsU ++ [opts], appAmts, [amt],
           some (([releaseReceipt, approveReceipt, some r]).map reduceReceipt), none⟩

/-- nii.js lines 92-98 then 107-118: submit the approval, await confirmation,
then continue with the completion step. -/
def approveThen (opts : GasOpts) (e : Env) (releaseReceipt : Option ConfRecord)
    (niiBalance : Nat) (steps : List Step) (optsU : List GasOpts) : TryOut :=
  let amt := formatUnits niiBalance 15
  match e.approveTx with
  | Except.error m =>
      ⟨steps ++ [Step.approve], optsU ++ [opts], [amt], [], none, some m⟩
  | Except.ok _ =>
      match e.approveConfirm with
      | Except.error m =>
          ⟨steps ++ [Step.approve], optsU ++ [opts], [amt], [], none, some m⟩
      | Except.ok r =>
          completeThen opts e releaseReceipt (some r) niiBalance
            (steps ++ [Step.approve]) (optsU ++ [opts]) [amt]

/-- Shallow embedding of the `try` block of the nii.js handler
(lines 46-119), given resolved gas options and the environment. -/
def niiTryRun (opts : GasOpts) (e : Env) : TryOut :=
  match e.bal0Read with
  | Except.error m => ⟨[], [], [], [], none, some m⟩
  | Except.ok _ =>
      -- lines 53-66: release phase; its failure is swallowed.
      let rr := releaseRcd e
      -- line 68: re-read the balance; this value feeds every later amount.
      match e.bal1Read with
      | Except.error m => ⟨[Step.release], [opts], [], [], none, some m⟩
      | Except.ok niiBalance =>
          -- line 72: read the current deposit allowance.
          match e.allowanceRead with
          | Except.error m => ⟨[Step.release], [opts], [], [], none, some m⟩
          | Except.ok allowance =>
              if allowance < niiBalance then
                if 0 < allowance then
                  -- lines 79-85: clear the existing allowance first.
                  match e.clearTx with
                  | Except.error m =>
                      ⟨[Step.release, Step.clear], [opts, opts], [], [], none, some m⟩
                  | Except.ok _ =>
                      match e.clearConfirm with
                      | Except.error m =>
                          ⟨[Step.release, Step.clear], [opts, opts], [], [], none, some m⟩
                      | Except.ok _ =>
                          approveThen opts e rr niiBalance
                            [Step.release, Step.clear] [opts, opts]
                else
                  -- lines 87-90: clear skipped, approve still needed.
                  approveThen opts e rr niiBalance [Step.release] [opts]
              else
                -- lines 100-105: allowance sufficient, skip clear and approve.
                completeThen opts e rr none niiBalance [Step.release] [opts] []

/-- Shallow embedding of the whole nii.js handler body after provider
acquisition (lines 46-130): the `try` block, the `catch` that wraps and
rethrows (lines 120-124), and the `finally` block (lines 125-130).  Note the
`finally` block awaits a closing `balanceOf` *before* `provider.stopUpdate()`;
if that read rejects, the rejection replaces any pending error and
`stopUpdate` is never invoked. -/
def niiRun (opts : GasOpts) (e : Env) : Trace :=
  let t := niiTryRun opts e
  let wrapped := t.err.map (fun m => "Claiming NII failed: " ++ m)
  match e.bal2Read with
  | Except.error m2 =>
      ⟨t.steps, t.optsUsed, t.approveAmounts, t.completeAmounts, t.output, some m2, 0⟩
  | Except.ok _ =>
      ⟨t.steps, t.optsUsed, t.approveAmounts, t.completeAmounts, t.output, wrapped, 1⟩

/-! ## Helper predicates over the environment -/

/-- Did the call succeed? -/
def exOk {α : Type} : Except String α → Bool
  | Except.ok _ => true
  | Except.error _ => false

/-- The call's value, if it succeeded. -/
def exSome {α : Type} : Except String α → Option α
  | Except.ok a => some a
  | Except.error _ => none

/-- The value of a successful numeric read (0 for a failed read; only used
beneath success guards). -/
def exVal : Except String Nat → Nat
  | Except.ok n => n
  | Except.error _ => 0

@[simp] theorem exOk_ok {α : Type} (a : α) : exOk (Except.ok a) = true := rfl

@[simp] theorem exOk_error {α : Type} (m : String) :
    exOk (Except.error m : Except String α) = false := rfl

@[simp] theorem exSome_ok {α : Type} (a : α) : exSome (Except.ok a) = some a := rfl

@[simp] theorem exSome_error {α : Type} (m : String) :
    exSome (Except.error m : Except String α) = none := rfl

@[simp] theorem exVal_ok (n : Nat) : exVal (Except.ok n) = n := rfl

@[simp] theorem exVal_error (m : String) : exVal (Except.error m) = 0 := rfl

/-- The deposit amount: the balance re-read at line 68. -/
def theBalance (e : Env) : Nat := exVal e.bal1Read

/-- The allowance read at line 72. -/
def theAllowance (e : Env) : Nat := exVal e.allowanceRead

/-- All three reads preceding the conditional steps succeeded. -/
def readsOk (e : Env) : Bool :=
  exOk e.bal0Read && exOk e.bal1Read && exOk e.allowanceRead

/-- The advisory release step (submission and confirmation) succeeded. -/
def releaseOk (e : Env) : Bool := exOk e.releaseTx && exOk e.releaseConfirm

/-- The clear step (submission and confirmation) succeeded. -/
def clearOk (e : Env) : Bool := exOk e.clearTx && exOk e.clearConfirm

/-- The approve step (submission and confirmation) succeeded. -/
def approveOk (e : Env) : Bool := exOk e.approveTx && exOk e.approveConfirm

/-- The complete-deposit step (submission and confirmation) succeeded. -/
def completeOk (e : Env) : Bool := exOk e.completeTx && exOk e.completeConfirm

/-- Line 77: the approve step is needed when `allowance < niiBalance`. -/
def approveNeeded (e : Env) : Bool := decide (theAllowance e < theBalance e)

/-- Line 78: the clear step is needed when additionally `0 < allowance`. -/
def clearNeeded (e : Env) : Bool := decide (0 < theAllowance e) && approveNeeded e

/-- The clear submission is attempted. -/
def clearAttempted (e : Env) : Bool := readsOk e && clearNeeded e

/-- The approve submission is attempted (clear succeeded first, if needed). -/
def approveAttempted (e : Env) : Bool :=
  readsOk e && approveNeeded e && (!clearNeeded e || clearOk e)

/-- The complete-deposit submission is attempted (all prior required steps
succeeded). -/
def completeAttempted (e : Env) : Bool :=
  readsOk e && (!approveNeeded e || ((!clearNeeded e || clearOk e) && approveOk e))

/-- Every required step of the run succeeded. -/
def requiredOk (e : Env) : Bool := completeAttempted e && completeOk e

/-! ## Characterization of the run -/

/-- Closed form of the submission list produced by a run. -/
def stepsOf (e : Env) : List Step :=
  if !exOk e.bal0Read then []
  else if !(exOk e.bal1Read && exOk e.allowanceRead) then [Step.release]
  else if approveNeeded e then
    if 0 < theAllowance e then
      [Step.release, Step.clear] ++
        (if clearOk e then
          [Step.approve] ++ (if approveOk e then [Step.complete] else [])
         else [])
    else
      [Step.release, Step.approve] ++ (if approveOk e then [Step.complete] else [])
  else [Step.release, Step.complete]

/-- The approve-step slot of the report: `null` when the step was skipped. -/
def approveRcd (e : Env) : Option ConfRecord :=
  if approveNeeded e then exSome e.approveConfirm else none

/-- Closed form of the printed report. -/
def reportOf (e : Env) : List (Option Receipt) :=
  [releaseRcd e, approveRcd e, exSome e.completeConfirm].map reduceReceipt

theorem completeThen_steps (opts : GasOpts) (e : Env) (rr ar : Option ConfRecord)
    (b : Nat) (s : List Step) (u : List GasOpts) (a : List String) :
    (completeThen opts e rr ar b s u a).steps = s ++ [Step.complete] := by
  unfold completeThen
  cases e.completeTx <;> simp <;> cases e.completeConfirm <;> simp

theorem completeThen_optsUsed (opts : GasOpts) (e : Env) (rr ar : Option ConfRecord)
    (b : Nat) (s : List Step) (u : List GasOpts) (a : List String) :
    (completeThen opts e rr ar b s u a).optsUsed = u ++ [opts] := by
  unfold completeThen
  cases e.completeTx <;> simp <;> cases e.completeConfirm <;> simp

theorem completeThen_approveAmounts (opts : GasOpts) (e : Env) (rr ar : Option ConfRecord)
    (b : Nat) (s : List Step) (u : List GasOpts) (a : List String) :
    (completeThen opts e rr ar b s u a).approveAmounts = a := by
  unfold completeThen
  cases e.completeTx <;> simp <;> cases e.completeConfirm <;> simp

theorem completeThen_completeAmounts (opts : GasOpts) (e : Env) (rr ar : Option ConfRecord)
    (b : Nat) (s : List Step) (u : List GasOpts) (a : List String) :
    (completeThen opts e rr ar b s u a).completeAmounts = [formatUnits b 15] := by
  unfold completeThen
  cases e.completeTx <;> simp <;> cases e.completeConfirm <;> simp

theorem completeThen_output (opts : GasOpts) (e : Env) (rr ar : Option ConfRecord)
    (b : Nat) (s : List Step) (u : List GasOpts) (a : List String) :
    (completeThen opts e rr ar b s u a).output =
      if completeOk e then some (([rr, ar, exSome e.completeConfirm]).map reduceReceipt)
      else none := by
  unfold completeThen completeOk
  cases e.completeTx <;> simp <;> cases e.completeConfirm <;> simp

theorem completeThen_err (opts : GasOpts) (e : Env) (rr ar : Option ConfRecord)
    (b : Nat) (s : List Step) (u : List GasOpts) (a : List String) :
    (completeThen opts e rr ar b s u a).err.isSome = !completeOk e := by
  unfold completeThen completeOk
  cases e.completeTx <;> simp <;> cases e.completeConfirm <;> simp

theorem approveThen_steps (opts : GasOpts) (e : Env) (rr : Option ConfRecord)
    (b : Nat) (s : List Step) (u : List GasOpts) :
    (approveThen opts e rr b s u).steps =
      s ++ [Step.approve] ++ (if approveOk e then [Step.complete] else []) := by
  unfold approveThen approveOk
  cases e.approveTx <;> simp <;> cases e.approveConfirm <;>
    simp [completeThen_steps]

theorem approveThen_optsUsed (opts : GasOpts) (e : Env) (rr : Option ConfRecord)
    (b : Nat) (s : List Step) (u : List GasOpts) :
    (approveThen opts e rr b s u).optsUsed =
      u ++ [opts] ++ (if approveOk e then [opts] else []) := by
  unfold approveThen approveOk
  cases e.approveTx <;> simp <;> cases e.approveConfirm <;>
    simp [completeThen_optsUsed]

theorem approveThen_approveAmounts (opts : GasOpts) (e : Env) (rr : Option ConfRecord)
    (b : Nat) (s : List Step) (u : List GasOpts) :
    (approveThen opts e rr b s u).approveAmounts = [formatUnits b 15] := by
  unfold approveThen
  cases e.approveTx <;> simp <;> cases e.approveConfirm <;>
    simp [completeThen_approveAmounts]

theorem approveThen_completeAmounts (opts : GasOpts) (e : Env) (rr : Option ConfRecord)
    (b : Nat) (s : List Step) (u : List GasOpts) :
    (approveThen opts e rr b s u).completeAmounts =
      if approveOk e then [formatUnits b 15] else [] := by
  unfold approveThen approveOk
  cases e.approveTx <;> simp <;> cases e.approveConfirm <;>
    simp [completeThen_completeAmounts]

theorem approveThen_output (opts : GasOpts) (e : Env) (rr : Option ConfRecord)
    (b : Nat) (s : List Step) (u : List GasOpts) :
    (approveThen opts e rr b s u).output =
      if approveOk e && completeOk e then
        some (([rr, exSome e.approveConfirm, exSome e.completeConfirm]).map reduceReceipt)
      else none := by
  unfold approveThen approveOk
  cases e.approveTx <;> simp <;> cases e.approveConfirm <;>
    simp [completeThen_output]

theorem approveThen_err (opts : GasOpts) (e : Env) (rr : Option ConfRecord)
    (b : Nat) (s : List Step) (u : List GasOpts) :
    (approveThen opts e rr b s u).err.isSome = !(approveOk e && completeOk e) := by
  unfold approveThen approveOk
  cases e.approveTx <;> simp <;> cases e.approveConfirm <;>
    simp [completeThen_err]

theorem niiTryRun_steps (opts : GasOpts) (e : Env) :
    (niiTryRun opts e).steps = stepsOf e := by
  obtain ⟨b0, rtx, rcf, b1, alw, ctx, ccf, atx, acf, ktx, kcf, b2⟩ := e
  cases b0 <;> cases b1 <;> cases alw <;> cases ctx <;> cases ccf <;>
    simp [niiTryRun, stepsOf, theAllowance, theBalance, approveNeeded, clearOk,
      approveThen_steps, completeThen_steps] <;>
  split_ifs <;>
    simp_all [approveThen_steps, completeThen_steps, approveOk]

theorem niiTryRun_optsUsed (opts : GasOpts) (e : Env) :
    (niiTryRun opts e).optsUsed = (stepsOf e).map (fun _ => opts) := by
  obtain ⟨b0, rtx, rcf, b1, alw, ctx, ccf, atx, acf, ktx, kcf, b2⟩ := e
  cases b0 <;> cases b1 <;> cases alw <;> cases ctx <;> cases ccf <;>
    simp [niiTryRun, stepsOf, theAllowance, theBalance, approveNeeded, clearOk,
      approveThen_optsUsed, completeThen_optsUsed] <;>
  split_ifs <;>
    simp_all [approveThen_optsUsed, completeThen_optsUsed, approveOk]

theorem niiTryRun_approveAmounts (opts : GasOpts) (e : Env) :
    (niiTryRun opts e).approveAmounts =
      if approveAttempted e then [formatUnits (theBalance e) 15] else [] := by
  obtain ⟨b0, rtx, rcf, b1, alw, ctx, ccf, atx, acf, ktx, kcf, b2⟩ := e
  cases b0 <;> cases b1 <;> cases alw <;> cases ctx <;> cases ccf <;>
    simp [niiTryRun, approveAttempted, readsOk, clearNeeded, approveNeeded,
      theAllowance, theBalance, clearOk,
      approveThen_approveAmounts, completeThen_approveAmounts] <;>
  split_ifs <;>
    simp_all [approveThen_approveAmounts, completeThen_approveAmounts, approveOk] <;>
    try omega
  all_goals (try casesm* _ ∨ _, _ ∧ _)
  all_goals try simp_all
  all_goals omega

theorem niiTryRun_completeAmounts (opts : GasOpts) (e : Env) :
    (niiTryRun opts e).completeAmounts =
      if completeAttempted e then [formatUnits (theBalance e) 15] else [] := by
  obtain ⟨b0, rtx, rcf, b1, alw, ctx, ccf, atx, acf, ktx, kcf, b2⟩ := e
  cases b0 <;> cases b1 <;> cases alw <;> cases ctx <;> cases ccf <;>
    simp [niiTryRun, completeAttempted, readsOk, clearNeeded, approveNeeded,
      theAllowance, theBalance, clearOk,
      approveThen_completeAmounts, completeThen_completeAmounts] <;>
  split_ifs <;>
    simp_all [approveThen_completeAmounts, completeThen_completeAmounts, approveOk] <;>
    try omega
  all_goals (try casesm* _ ∨ _, _ ∧ _)
  all_goals try simp_all
  all_goals omega

theorem niiTryRun_output (opts : GasOpts) (e : Env) :
    (niiTryRun opts e).output =
      if requiredOk e then some (reportOf e) else none := by
  obtain ⟨b0, rtx, rcf, b1, alw, ctx, ccf, atx, acf, ktx, kcf, b2⟩ := e
  cases b0 <;> cases b1 <;> cases alw <;> cases ctx <;> cases ccf <;>
    simp [niiTryRun, requiredOk, completeAttempted, readsOk, clearNeeded,
      approveNeeded, theAllowance, theBalance, clearOk, reportOf, approveRcd,
      approveThen_output, completeThen_output] <;>
  split_ifs <;>
    simp_all [approveThen_output, completeThen_output, approveOk, completeOk] <;>
    try omega
  all_goals (try casesm* _ ∨ _, _ ∧ _)
  all_goals try simp_all
  all_goals omega

theorem niiTryRun_err (opts : GasOpts) (e : Env) :
    (niiTryRun opts e).err.isSome = !requiredOk e := by
  obtain ⟨b0, rtx, rcf, b1, alw, ctx, ccf, atx, acf, ktx, kcf, b2⟩ := e
  cases b0 <;> cases b1 <;> cases alw <;> cases ctx <;> cases ccf <;>
    simp [niiTryRun, requiredOk, completeAttempted, readsOk, clearNeeded,
      approveNeeded, theAllowance, theBalance, clearOk,
      approveThen_err, completeThen_err] <;>
  split_ifs <;>
    simp_all [approveThen_err, completeThen_err, approveOk, completeOk] <;>
    try omega
  all_goals (try casesm* _ ∨ _, _ ∧ _)
  all_goals try simp_all
  all_goals omega

theorem niiRun_steps (opts : GasOpts) (e : Env) :
    (niiRun opts e).steps = stepsOf e := by
  unfold niiRun
  cases e.bal2Read <;> simp [niiTryRun_steps]

theorem niiRun_optsUsed (opts : GasOpts) (e : Env) :
    (niiRun opts e).optsUsed = (stepsOf e).map (fun _ => opts) := by
  unfold niiRun
  cases e.bal2Read <;> simp [niiTryRun_optsUsed]

theorem niiRun_approveAmounts (opts : GasOpts) (e : Env) :
    (niiRun opts e).approveAmounts =
      if approveAttempted e then [formatUnits (theBalance e) 15] else [] := by
  unfold niiRun
  cases e.bal2Read <;> simp [niiTryRun_approveAmounts]

theorem niiRun_completeAmounts (opts : GasOpts) (e : Env) :
    (niiRun opts e).completeAmounts =
      if completeAttempted e then [formatUnits (theBalance e) 15] else [] := by
  unfold niiRun
  cases e.bal2Read <;> simp [niiTryRun_completeAmounts]

theorem niiRun_output (opts : GasOpts) (e : Env) :
    (niiRun opts e).output = if requiredOk e then some (reportOf e) else none := by
  unfold niiRun
  cases e.bal2Read <;> simp [niiTryRun_output]

theorem niiRun_stopUpdates (opts : GasOpts) (e : Env) :
    (niiRun opts e).stopUpdates = if exOk e.bal2Read then 1 else 0 := by
  unfold niiRun
  cases e.bal2Read <;> simp

theorem niiRun_errorMsg (opts : GasOpts) (e : Env) :
    (niiRun opts e).errorMsg.isSome = (!requiredOk e || !exOk e.bal2Read) := by
  unfold niiRun
  cases e.bal2Read <;> simp [niiTryRun_err]

/-! ## Concrete environments used by witnesses and counterexamples -/

/-- The gas options of a default invocation (gas 800000, price 12 gwei). -/
def optsW : GasOpts := ⟨some 800000, 12000000000⟩

/-- An environment in which every external call succeeds, with allowance 0
and re-read balance 3. -/
def envAllOk : Env :=
  { bal0Read := Except.ok 100
    releaseTx := Except.ok ⟨"rh"⟩
    releaseConfirm := Except.ok ⟨"rh", 1, 11⟩
    bal1Read := Except.ok 3
    allowanceRead := Except.ok 0
    clearTx := Except.ok ⟨"ch"⟩
    clearConfirm := Except.ok ⟨"ch", 2, 12⟩
    approveTx := Except.ok ⟨"ah"⟩
    approveConfirm := Except.ok ⟨"ah", 3, 13⟩
    completeTx := Except.ok ⟨"kh"⟩
    completeConfirm := Except.ok ⟨"kh", 4, 14⟩
    bal2Read := Except.ok 0 }

/-! ## C1 — the allowance skip rule -/

/-- C1: for required amount `R` (the re-read balance) and allowance `A`, the
run submits neither clear nor approve iff `A ≥ R`; only approve (no clear)
iff `A = 0` and `R > 0`; and clear directly followed by approve iff
`0 < A < R` — provided the reads succeed and the clear step, when attempted,
succeeds (nii.js lines 71-105). -/
theorem nii_allowance_skip (opts : GasOpts) (e : Env) (A R : Nat)
    (hb0 : exOk e.bal0Read = true)
    (hb1 : e.bal1Read = Except.ok R)
    (hal : e.allowanceRead = Except.ok A)
    (hclear : clearOk e = true) :
    ((Step.clear ∉ (niiRun opts e).steps ∧ Step.approve ∉ (niiRun opts e).steps) ↔ R ≤ A)
    ∧ ((Step.approve ∈ (niiRun opts e).steps ∧ Step.clear ∉ (niiRun opts e).steps)
        ↔ (A = 0 ∧ 0 < R))
    ∧ (((niiRun opts e).steps.filter
          (fun s => decide (s = Step.clear ∨ s = Step.approve)) = [Step.clear, Step.approve])
        ↔ (0 < A ∧ A < R)) := by
  rw [niiRun_steps]
  unfold stepsOf
  rw [hb1, hal]
  simp [hb0, theAllowance, theBalance, approveNeeded, hclear]
  by_cases hAR : A < R <;> by_cases hA : 0 < A <;>
    simp [hAR, hA] <;> split_ifs <;> simp_all <;> omega

/-- Closed witness for C1 at allowance 0 and balance 3. -/
theorem nii_allowance_skip_witness :
    exOk envAllOk.bal0Read = true ∧ envAllOk.bal1Read = Except.ok 3
    ∧ envAllOk.allowanceRead = Except.ok 0 ∧ clearOk envAllOk = true
    ∧ (((Step.clear ∉ (niiRun optsW envAllOk).steps
          ∧ Step.approve ∉ (niiRun optsW envAllOk).steps) ↔ (3 : Nat) ≤ 0)
       ∧ ((Step.approve ∈ (niiRun optsW envAllOk).steps
          ∧ Step.clear ∉ (niiRun optsW envAllOk).steps) ↔ ((0 : Nat) = 0 ∧ 0 < 3))
       ∧ (((niiRun optsW envAllOk).steps.filter
            (fun s => decide (s = Step.clear ∨ s = Step.approve)) = [Step.clear, Step.approve])
          ↔ ((0 : Nat) < 0 ∧ 0 < 3))) :=
  ⟨rfl, rfl, rfl, rfl, nii_allowance_skip optsW envAllOk 0 3 rfl rfl rfl rfl⟩

/-! ## C2 — the failure policy of the sequencer -/

/-- A failed clear step leaves the workflow without a successful completion. -/
theorem clear_fail_requiredOk (e : Env) (h1 : clearAttempted e = true)
    (h2 : clearOk e = false) : requiredOk e = false := by
  obtain ⟨b0, rtx, rcf, b1, alw, ctx, ccf, atx, acf, ktx, kcf, b2⟩ := e
  cases b0 <;> cases b1 <;> cases alw <;> cases ctx <;> cases ccf <;>
    simp_all [clearAttempted, clearNeeded, approveNeeded, requiredOk,
      completeAttempted, readsOk, clearOk, theAllowance, theBalance] <;>
    try omega

/-- A failed clear step prevents the approve and complete submissions. -/
theorem clear_fail_steps (e : Env) (h1 : clearAttempted e = true)
    (h2 : clearOk e = false) :
    Step.approve ∉ stepsOf e ∧ Step.complete ∉ stepsOf e := by
  obtain ⟨b0, rtx, rcf, b1, alw, ctx, ccf, atx, acf, ktx, kcf, b2⟩ := e
  cases b0 <;> cases b1 <;> cases alw <;> cases ctx <;> cases ccf <;>
    simp_all [clearAttempted, clearNeeded, approveNeeded, readsOk, clearOk,
      theAllowance, theBalance, stepsOf] <;>
    split_ifs <;> simp_all <;> try omega

/-- A failed approve step leaves the workflow without a successful completion. -/
theorem approve_fail_requiredOk (e : Env) (h1 : approveAttempted e = true)
    (h2 : approveOk e = false) : requiredOk e = false := by
  obtain ⟨b0, rtx, rcf, b1, alw, ctx, ccf, atx, acf, ktx, kcf, b2⟩ := e
  cases b0 <;> cases b1 <;> cases alw <;> cases ctx <;> cases ccf <;>
    simp_all [approveAttempted, clearNeeded, approveNeeded, requiredOk,
      completeAttempted, readsOk, clearOk, theAllowance, theBalance] <;>
    try omega

/-- A failed approve step prevents the complete submission. -/
theorem approve_fail_steps (e : Env) (h1 : approveAttempted e = true)
    (h2 : approveOk e = false) : Step.complete ∉ stepsOf e := by
  obtain ⟨b0, rtx, rcf, b1, alw, ctx, ccf, atx, acf, ktx, kcf, b2⟩ := e
  cases b0 <;> cases b1 <;> cases alw <;> cases ctx <;> cases ccf <;>
    simp_all [approveAttempted, clearNeeded, approveNeeded, readsOk, clearOk,
      theAllowance, theBalance, stepsOf, approveOk] <;>
    split_ifs <;> simp_all <;> try omega

/-- The completion step is submitted whenever it is attempted. -/
theorem complete_mem_steps (e : Env) (h : completeAttempted e = true) :
    Step.complete ∈ stepsOf e := by
  obtain ⟨b0, rtx, rcf, b1, alw, ctx, ccf, atx, acf, ktx, kcf, b2⟩ := e
  cases b0 <;> cases b1 <;> cases alw <;> cases ctx <;> cases ccf <;>
    simp_all [completeAttempted, clearNeeded, approveNeeded, readsOk, clearOk,
      theAllowance, theBalance, stepsOf, approveOk] <;>
    split_ifs <;> simp_all <;> try omega

/-- A failed release phase leaves no release receipt. -/
theorem release_fail_rcd (e : Env) (h : releaseOk e = false) :
    releaseRcd e = none := by
  unfold releaseRcd
  unfold releaseOk at h
  cases hr1 : e.releaseTx <;> cases hr2 : e.releaseConfirm <;> simp_all

/-- C2: a failed required step (clear, approve or complete — submission or
confirmation) aborts the run immediately: an error is raised, no later step
is submitted and no report is printed.  A failed advisory release step is
recorded as a `null` slot and execution continues (nii.js lines 53-66 and
the outer catch at 120-124). -/
theorem nii_failure_policy (opts : GasOpts) (e : Env) :
    (clearAttempted e = true → clearOk e = false →
        (niiRun opts e).errorMsg.isSome = true
        ∧ Step.approve ∉ (niiRun opts e).steps
        ∧ Step.complete ∉ (niiRun opts e).steps
        ∧ (niiRun opts e).output = none)
    ∧ (approveAttempted e = true → approveOk e = false →
        (niiRun opts e).errorMsg.isSome = true
        ∧ Step.complete ∉ (niiRun opts e).steps
        ∧ (niiRun opts e).output = none)
    ∧ (completeAttempted e = true → completeOk e = false →
        (niiRun opts e).errorMsg.isSome = true
        ∧ (niiRun opts e).output = none)
    ∧ (releaseOk e = false → requiredOk e = true →
        (niiRun opts e).output = some (reportOf e)
        ∧ (reportOf e).head? = some none
        ∧ Step.complete ∈ (niiRun opts e).steps) := by
  simp only [niiRun_errorMsg, niiRun_steps, niiRun_output]
  refine ⟨?_, ?_, ?_, ?_⟩
  · intro h1 h2
    have hreq := clear_fail_requiredOk e h1 h2
    obtain ⟨hna, hnc⟩ := clear_fail_steps e h1 h2
    exact ⟨by simp [hreq], hna, hnc, by simp [hreq]⟩
  · intro h1 h2
    have hreq := approve_fail_requiredOk e h1 h2
    exact ⟨by simp [hreq], approve_fail_steps e h1 h2, by simp [hreq]⟩
  · intro h1 h2
    have hreq : requiredOk e = false := by simp [requiredOk, h2]
    exact ⟨by simp [hreq], by simp [hreq]⟩
  · intro h1 h2
    have hca : completeAttempted e = true := by
      unfold requiredOk at h2
      simp_all
    have hrel := release_fail_rcd e h1
    refine ⟨by simp [h2], ?_, complete_mem_steps e hca⟩
    simp [reportOf, hrel, reduceReceipt]

/-- Environment for the C2 witness: the approve submission fails after a
successful clear, so the run must abort before the completion step. -/
def envC2 : Env :=
  { bal0Read := Except.ok 100
    releaseTx := Except.ok ⟨"rh"⟩
    releaseConfirm := Except.ok ⟨"rh", 1, 11⟩
    bal1Read := Except.ok 9
    allowanceRead := Except.ok 4
    clearTx := Except.ok ⟨"ch"⟩
    clearConfirm := Except.ok ⟨"ch", 2, 12⟩
    approveTx := Except.error "transaction failed"
    approveConfirm := Except.error "unreachable"
    completeTx := Except.ok ⟨"kh"⟩
    completeConfirm := Except.ok ⟨"kh", 4, 14⟩
    bal2Read := Except.ok 0 }

/-- Closed witness for C2: with the approve submission failing, the run
raises an error, never submits the completion step and prints nothing. -/
theorem nii_failure_policy_witness :
    approveAttempted envC2 = true ∧ approveOk envC2 = false
    ∧ ((niiRun optsW envC2).errorMsg.isSome = true
       ∧ Step.complete ∉ (niiRun optsW envC2).steps
       ∧ (niiRun optsW envC2).output = none) :=
  ⟨by decide, by decide, (nii_failure_policy optsW envC2).2.1 (by decide) (by decide)⟩

/-! ## C3 — cleanup -/

/-- Environment for C3: the whole workflow succeeds, but the closing balance
read inside the `finally` block rejects. -/
def envC3 : Env :=
  { bal0Read := Except.ok 100
    releaseTx := Except.ok ⟨"rh"⟩
    releaseConfirm := Except.ok ⟨"rh", 1, 11⟩
    bal1Read := Except.ok 3
    allowanceRead := Except.ok 5
    clearTx := Except.ok ⟨"ch"⟩
    clearConfirm := Except.ok ⟨"ch", 2, 12⟩
    approveTx := Except.ok ⟨"ah"⟩
    approveConfirm := Except.ok ⟨"ah", 3, 13⟩
    completeTx := Except.ok ⟨"kh"⟩
    completeConfirm := Except.ok ⟨"kh", 4, 14⟩
    bal2Read := Except.error "network down" }

/-- C3: `provider.stopUpdate()` runs exactly once on every exit path on which
the closing `balanceOf` of the `finally` block succeeds — but zero times when
that read rejects, because nii.js line 126 awaits the balance before line 129
calls `stopUpdate`.  In `envC3` every workflow step succeeded, yet cleanup
never ran. -/
theorem nii_cleanup_stopUpdate :
    (∀ (opts : GasOpts) (e : Env),
        (niiRun opts e).stopUpdates = if exOk e.bal2Read then 1 else 0)
    ∧ requiredOk envC3 = true
    ∧ (niiRun optsW envC3).stopUpdates = 0
    ∧ (niiRun optsW envC3).errorMsg.isSome = true :=
  ⟨fun opts e => niiRun_stopUpdates opts e, by decide, by decide, by decide⟩

/-! ## C5 — shape of the result sequence -/

/-- Environment for the C5 counterexample: the advisory release step fails,
the allowance (5) already covers the balance (3) so clear and approve are
skipped, and the required completion step succeeds. -/
def envC5 : Env :=
  { bal0Read := Except.ok 100
    releaseTx := Except.error "boom"
    releaseConfirm := Except.error "unreachable"
    bal1Read := Except.ok 3
    allowanceRead := Except.ok 5
    clearTx := Except.ok ⟨"ch"⟩
    clearConfirm := Except.ok ⟨"ch", 2, 12⟩
    approveTx := Except.ok ⟨"ah"⟩
    approveConfirm := Except.ok ⟨"ah", 3, 13⟩
    completeTx := Except.ok ⟨"kh"⟩
    completeConfirm := Except.ok ⟨"kh", 4, 30⟩
    bal2Read := Except.ok 0 }

/-- C5 counterexample: in `envC5` only two steps are attempted (release and
complete), yet the printed sequence has three slots — the skipped approve
step contributes a `null` slot, and the advisory-fail-then-required-success
scenario yields length 3, not 2. -/
theorem nii_report_counterexample :
    (niiRun optsW envC5).steps = [Step.release, Step.complete]
    ∧ (niiRun optsW envC5).output =
        some [none, none, some ⟨"kh", 4, "30", "https://ropsten.etherscan.io/tx/kh"⟩]
    ∧ ((niiRun optsW envC5).output.getD []).length ≠ (niiRun optsW envC5).steps.length := by
  refine ⟨by decide, by decide, by decide⟩

/-- C5 as amended: whenever the run prints a report, the report is the fixed
three-slot sequence [release, approve, complete] in submission order (the
clear step never contributes a slot; a skipped or failed advisory/skipped
step contributes a `null` slot); in the advisory-fail + required-success
scenario the report has length 3, slot 0 is `null` and the last slot is a
valid receipt. -/
theorem nii_report_shape (opts : GasOpts) (e : Env) :
    (∀ l, (niiRun opts e).output = some l → l.length = 3 ∧ l = reportOf e)
    ∧ (requiredOk e = true → releaseOk e = false →
        (niiRun opts e).output =
          some [none, reduceReceipt (approveRcd e), reduceReceipt (exSome e.completeConfirm)]
        ∧ (reduceReceipt (exSome e.completeConfirm)).isSome = true) := by
  rw [niiRun_output]
  constructor
  · intro l hl
    split_ifs at hl with hreq
    cases hl
    simp [reportOf]
  · intro hreq hrel
    have hrr : releaseRcd e = none := by
      unfold releaseRcd
      unfold releaseOk at hrel
      cases hr1 : e.releaseTx <;> cases hr2 : e.releaseConfirm <;> simp_all
    have hcc : exOk e.completeConfirm = true := by
      unfold requiredOk completeOk at hreq
      simp_all
    refine ⟨?_, ?_⟩
    · simp [hreq, reportOf, hrr, reduceReceipt]
    · cases hk : e.completeConfirm <;> simp_all [reduceReceipt]

/-- Closed witness for C5's amended theorem, at `envC5`. -/
theorem nii_report_shape_witness :
    requiredOk envC5 = true ∧ releaseOk envC5 = false
    ∧ ((niiRun optsW envC5).output =
        some [none, reduceReceipt (approveRcd envC5),
          reduceReceipt (exSome envC5.completeConfirm)]
      ∧ (reduceReceipt (exSome envC5.completeConfirm)).isSome = true) :=
  ⟨by decide, by decide, (nii_report_shape optsW envC5).2 (by decide) (by decide)⟩

/-! ## C6 — no partial output -/

/-- C6: the run prints a report exactly when every required step confirmed;
on an abort (any required step or read failing) nothing is printed and an
error is raised (nii.js line 118 is reached only after line 112 succeeds;
the catch at 120-124 rethrows). -/
theorem nii_abort_no_output (opts : GasOpts) (e : Env) :
    ((niiRun opts e).output.isSome = requiredOk e)
    ∧ (requiredOk e = false →
        (niiRun opts e).output = none ∧ (niiRun opts e).errorMsg.isSome = true) := by
  simp only [niiRun_output, niiRun_errorMsg]
  constructor
  · split_ifs with h <;> simp [h]
  · intro h
    simp [h]

/-- Environment for the C6 witness: the completion confirmation times out. -/
def envC6 : Env :=
  { bal0Read := Except.ok 100
    releaseTx := Except.ok ⟨"rh"⟩
    releaseConfirm := Except.ok ⟨"rh", 1, 11⟩
    bal1Read := Except.ok 3
    allowanceRead := Except.ok 5
    clearTx := Except.ok ⟨"ch"⟩
    clearConfirm := Except.ok ⟨"ch", 2, 12⟩
    approveTx := Except.ok ⟨"ah"⟩
    approveConfirm := Except.ok ⟨"ah", 3, 13⟩
    completeTx := Except.ok ⟨"kh"⟩
    completeConfirm := Except.error "mining not confirmed within 60 seconds"
    bal2Read := Except.ok 0 }

/-- Closed witness for C6: the aborted run prints nothing and raises. -/
theorem nii_abort_no_output_witness :
    requiredOk envC6 = false
    ∧ ((niiRun optsW envC6).output = none
       ∧ (niiRun optsW envC6).errorMsg.isSome = true) :=
  ⟨by decide, (nii_abort_no_output optsW envC6).2 (by decide)⟩

/-! ## C10 — the deposited amount -/

/-- C10: every amount string passed to the approve step and to the
complete-deposit step equals the balance re-read after the release phase
(line 68), formatted with the hard-coded 15-decimal precision (lines 93 and
108); the opening balance read at line 50 never influences the run beyond
its own success. -/
theorem nii_deposit_amount (opts : GasOpts) (e : Env) (n m : Nat) :
    ((niiRun opts e).approveAmounts.all
        (fun a => a == formatUnits (theBalance e) 15) = true)
    ∧ ((niiRun opts e).completeAmounts.all
        (fun a => a == formatUnits (theBalance e) 15) = true)
    ∧ niiRun opts { e with bal0Read := Except.ok n }
        = niiRun opts { e with bal0Read := Except.ok m } := by
  refine ⟨?_, ?_, ?_⟩
  · rw [niiRun_approveAmounts]
    split_ifs <;> simp
  · rw [niiRun_completeAmounts]
    split_ifs <;> simp
  · obtain ⟨b0, rtx, rcf, b1, alw, ctx, ccf, atx, acf, ktx, kcf, b2⟩ := e
    simp [niiRun, niiTryRun, releaseRcd, approveThen, completeThen]

/-! ## JavaScript numeric parsing (`parseInt`) and the validators -/

/-- Numeric value of a digit list (most significant first). -/
def digitsVal (l : List Char) : Nat :=
  l.foldl (fun a c => a * 10 + (c.toNat - 48)) 0

/-- The leading digit run of a character list, as a number; `none` when the
list does not start with a digit (JavaScript `NaN`). -/
def leadingDigits (l : List Char) : Option Nat :=
  let d := l.takeWhile Char.isDigit
  if d.isEmpty then none else some (digitsVal d)

/-- JavaScript `parseInt(s)` in radix 10: skip leading spaces, optional
sign, then the longest digit prefix; `none` models `NaN`. -/
def parseIntJS (s : String) : Option Int :=
  match s.data.dropWhile (fun c => c = ' ') with
  | '-' :: rest => (leadingDigits rest).map (fun n => -(n : Int))
  | '+' :: rest => (leadingDigits rest).map (fun n => (n : Int))
  | l => (leadingDigits l).map (fun n => (n : Int))

/-- `validateGasLimit` (fees document lines 332-337; identically nii.js
lines 141-146): `parseInt`, then reject values `≤ 0`.  A `NaN` (`none`)
passes the `gasLimit <= 0` test — which is false in JavaScript for `NaN` —
and is returned unchecked. -/
def validateGasLimit (gas : String) : Except String (Option Int) :=
  match parseIntJS gas with
  | none => Except.ok none
  | some g =>
      if g ≤ 0 then Except.error "Gas limit must be a number higher than 0."
      else Except.ok (some g)

/-- `validateGasPrice` (fees lines 325-330; nii.js lines 134-139). -/
def validateGasPrice (priceGWei : String) : Except String (Option Int) :=
  match parseIntJS priceGWei with
  | none => Except.ok none
  | some p =>
      if p ≤ 0 then Except.error "Gas price must be a number higher than 0."
      else Except.ok (some p)

/-- `validateTimeout` (fees lines 353-358; nii.js lines 155-160). -/
def validateTimeout (timeout : String) : Except String (Option Int) :=
  match parseIntJS timeout with
  | none => Except.ok none
  | some t =>
      if t ≤ 0 then Except.error "Timeout must be a number higher than 0."
      else Except.ok (some t)

/-- The gas-policy stage of the fees handler (lines 248-253): validate gas
limit, timeout and gwei price, then build the single options value,
converting the price to base units via `parseUnits(price.toString(),
'gwei')` — a multiplication by `10^9` that throws when the validator let a
`NaN` through (its string form `"NaN"` is not a decimal). -/
def resolveOptions (gasS timeoutS priceS : String) :
    Except String (GasOpts × Option Int) := do
  let gasLimit ← validateGasLimit gasS
  let timeout ← validateTimeout timeoutS
  let priceGwei ← validateGasPrice priceS
  match priceGwei with
  | none => Except.error "invalid decimal string"
  | some p => pure ({ gasLimit := gasLimit, gasPrice := p * 1000000000 }, timeout)

/-- A value the gas/timeout validators let through: `NaN` or positive. -/
def laxPos (s : String) : Bool :=
  match parseIntJS s with
  | none => true
  | some v => decide (0 < v)

/-- A value on which the whole gas-price pipeline succeeds: a strictly
positive parsed integer. -/
def strictPos (s : String) : Bool :=
  match parseIntJS s with
  | none => false
  | some v => decide (0 < v)

/-! ## The range normalizer of the fees handler -/

/-- `validateBlock` (fees lines 339-344): `parseInt`, rejecting `NaN` and
negative values.  `validateAccrual` (lines 346-351) is identical except for
the word "accrual index" in its message. -/
def validateBlock (index : String) (name : String) : Except String Int :=
  match parseIntJS index with
  | none => Except.error (name ++ " block number must be a number higher than 0.")
  | some i =>
      if i < 0 then
        Except.error (name ++ " block number must be a number higher than 0.")
      else Except.ok i

/-- Split a character list at every occurrence of `c` (the semantics of the
JavaScript `String.prototype.split` with a single-character separator). -/
def splitOnChar (c : Char) : List Char → List (List Char)
  | [] => [[]]
  | x :: xs =>
      match splitOnChar c xs with
      | [] => [[]]
      | h :: t => if x = c then [] :: h :: t else (x :: h) :: t

/-- JavaScript `s.split(c)` for a one-character separator. -/
def splitString (c : Char) (s : String) : List String :=
  (splitOnChar c s.data).map String.mk

/-- First dash-separated bound of a range option (fees line 232). -/
def firstPart (s : String) : String := (splitString '-' s).headD ""

/-- Effective last bound (fees line 236): the second dash-separated part,
or — because a missing part (`undefined`) and the empty string are both
falsy in `lastBlock || firstBlock` — the first bound. -/
def lastPart (s : String) : String :=
  let l0 := ((splitString '-' s).drop 1).headD ""
  if l0 = "" then firstPart s else l0

/-- The range normalization of the fees handler (lines 231-246): validate
the first bound, then the effective last bound. -/
def parseRange (s : String) : Except String (Int × Int) := do
  let f ← validateBlock (firstPart s) "First"
  let l ← validateBlock (lastPart s) "Last"
  pure (f, l)

/-! ## Amount normalization -/

/-- Exact parse of a non-negative decimal numeral: digits, optionally one
dot followed by digits; yields (whole part, fraction value, fraction
length). -/
def parseDecimal (s : String) : Option (Nat × Nat × Nat) :=
  match splitString '.' s with
  | [w] =>
      if 0 < w.length && w.data.all Char.isDigit then some (digitsVal w.data, 0, 0)
      else none
  | [w, f] =>
      if 0 < w.length && 0 < f.length && w.data.all Char.isDigit
          && f.data.all Char.isDigit then
        some (digitsVal w.data, digitsVal f.data, f.length)
      else none
  | _ => none

inductive NormErr
  | invalidAmount
  | zeroAmount
deriving DecidableEq, Repr

/-- Modelled from the spec: `ethers.utils.parseUnits(a, d)`, the Amount
Normalizer contract of §4.1 (the ethers library is not part of the
repository source; pay.js line 20 and the fees handler call it): a valid
non-negative decimal numeral becomes the exact integer `a·10^d`; an invalid
numeral or a fraction longer than `d` digits is rejected. -/
def parseUnits (s : String) (d : Nat) : Except NormErr Nat :=
  match parseDecimal s with
  | none => Except.error NormErr.invalidAmount
  | some (w, f, k) =>
      if k ≤ d then Except.ok (w * 10 ^ d + f * 10 ^ (d - k))
      else Except.error NormErr.invalidAmount

/-- Exact rational value of a parsed decimal `(w, f, k)`. -/
def decVal (w f k : Nat) : ℚ := (w : ℚ) + (f : ℚ) / 10 ^ k

/-- Modelled from the spec: the deposit command's amount normalization
(`deposit.js` is absent from `src/`; §4.1 and the tests of
`deposit.spec.js` lines 175-230 fix the contract): parse exactly, reject a
zero result with `ZeroAmount`. -/
def normalize (s : String) (d : Nat) : Except NormErr Nat :=
  match parseUnits s d with
  | Except.error err => Except.error err
  | Except.ok n => if n = 0 then Except.error NormErr.zeroAmount else Except.ok n

/-- Modelled from the spec: the deposit handler's validation stage runs
before the provider is created (`deposit.spec.js` lines 189-229 assert the
provider constructor is never called for `'foo'` or `'0'`).  The Bool
records whether the provider was instantiated — i.e. whether any network
side effect could have occurred. -/
def depositStart (s : String) (d : Nat) : Option NormErr × Bool :=
  match normalize s d with
  | Except.error err => (some err, false)
  | Except.ok _ => (none, true)

/-! ## IEEE-754 double model for the legacy pay handler -/

/-- An unreduced non-negative fraction `num / den`, used for exact
computation (kernel-friendly, unlike the field operations of `ℚ`). -/
structure PosQ where
  num : Nat
  den : Nat
deriving DecidableEq, Repr

/-- Product of fractions. -/
def pqMul (a b : PosQ) : PosQ := ⟨a.num * b.num, a.den * b.den⟩

/-- Value equality of fractions (cross multiplication). -/
def pqEq (a b : PosQ) : Bool := a.num * b.den == b.num * a.den

/-- Exact value of a parsed decimal `(w, f, k)` as a fraction. -/
def decValP (w f k : Nat) : PosQ := ⟨w * 10 ^ k + f, 10 ^ k⟩

/-- The fraction `10^d`. -/
def pow10P (d : Nat) : PosQ := ⟨10 ^ d, 1⟩

/-- Number of binary digits, with fuel (adequate for `n < 2^128`). -/
def bitLenAux : Nat → Nat → Nat
  | 0, _ => 0
  | fuel + 1, n => if n = 0 then 0 else bitLenAux fuel (n / 2) + 1

/-- Number of binary digits of `n`. -/
def bitLen (n : Nat) : Nat := bitLenAux 128 n

/-- `⌊log₂ (num/den)⌋` for positive `num` and `den`. -/
def floorLog2Q (num den : Nat) : Int :=
  let t : Int := (bitLen num : Int) - (bitLen den : Int)
  let ge : Bool :=
    if 0 ≤ t then decide (den * 2 ^ t.toNat ≤ num)
    else decide (den ≤ num * 2 ^ (-t).toNat)
  if ge then t else t - 1

/-- Round a non-negative fraction to the nearest IEEE-754 binary64 value
(53 significant bits, round to nearest, ties to even); overflow and
subnormals are ignored as they cannot occur at the magnitudes involved. -/
def roundDouble (q : PosQ) : PosQ :=
  if q.num = 0 then ⟨0, 1⟩
  else
    let e : Int := floorLog2Q q.num q.den - 52
    let N : Nat := if 0 ≤ e then q.num else q.num * 2 ^ (-e).toNat
    let D : Nat := if 0 ≤ e then q.den * 2 ^ e.toNat else q.den
    let m := N / D
    let r := N % D
    let m2 :=
      if D < 2 * r then m + 1
      else if 2 * r < D then m
      else if m % 2 = 0 then m else m + 1
    if 0 ≤ e then ⟨m2 * 2 ^ e.toNat, 1⟩
    else ⟨m2, 2 ^ (-e).toNat⟩

/-- The legacy pay handler's amount computation (`src/unnamed/part_000`
line 19): `(parseFloat(argv.amount) * 10 ** decimals).toString()` —
`parseFloat` rounds the decimal literal to the nearest double, `10 ** d` is
the double nearest `10^d`, and the product rounds once more. -/
def part000Amount (a : String) (d : Nat) : Option PosQ :=
  (parseDecimal a).map (fun wfk =>
    roundDouble (pqMul (roundDouble (decValP wfk.1 wfk.2.1 wfk.2.2))
      (roundDouble (pow10P d))))

/-! ## C7 — the gas policy resolver -/

/-- C7 counterexample: the validators do not reject every input that is not
a strictly positive integer — `parseInt('foo')` is `NaN`, `NaN <= 0` is
false in JavaScript, so `'foo'` passes gas-limit validation (returning
`NaN`), and `'2.5'` is silently truncated to the integer 2. -/
theorem gas_validator_counterexample :
    validateGasLimit "foo" = Except.ok none
    ∧ validateGasLimit "2.5" = Except.ok (some 2)
    ∧ validateGasPrice "foo" = Except.ok none := by
  refine ⟨by decide, by decide, by decide⟩

/-- C7 as amended: the resolver succeeds iff gas limit and timeout each
parse to `NaN` or a positive integer and the gas price parses to a strictly
positive integer (a `NaN` price slips past its validator but makes the
gwei conversion throw); on success the single options value carries the
parsed gas limit and the price multiplied by `10^9`, and one options value
is shared by every submission of a run. -/
theorem gas_policy_resolver (g t p : String) :
    (exOk (resolveOptions g t p) = (laxPos g && laxPos t && strictPos p))
    ∧ (∀ pv : Int, parseIntJS p = some pv → 0 < pv → laxPos g = true → laxPos t = true →
        resolveOptions g t p =
          Except.ok ({ gasLimit := parseIntJS g, gasPrice := pv * 1000000000 }, parseIntJS t))
    ∧ (∀ (opts : GasOpts) (e : Env),
        (niiRun opts e).optsUsed.all (fun o => o == opts) = true) := by
  refine ⟨?_, ?_, ?_⟩
  · unfold resolveOptions validateGasLimit validateTimeout validateGasPrice laxPos strictPos
    rcases hg : parseIntJS g with _ | gv <;> rcases ht : parseIntJS t with _ | tv <;>
      rcases hp : parseIntJS p with _ | pv <;>
      simp [Bind.bind, Except.bind, Pure.pure, Except.pure, exOk] <;> split_ifs <;>
      try simp_all [exOk, Pure.pure, Except.pure] <;> try omega
  · intro pv hpv h0 hg ht
    unfold laxPos at hg ht
    unfold resolveOptions validateGasLimit validateTimeout validateGasPrice
    rw [hpv]
    rcases hgv : parseIntJS g with _ | gv <;> rcases htv : parseIntJS t with _ | tv <;>
      simp_all [Bind.bind, Except.bind, Pure.pure, Except.pure] <;> split_ifs
    all_goals first
      | omega
      | simp_all
  · intro opts e
    rw [niiRun_optsUsed]
    simp [List.all_map]

/-- Closed witness for C7's amended theorem at gas 3, timeout 60 and
price 12 gwei. -/
theorem gas_policy_resolver_witness :
    parseIntJS "12" = some 12 ∧ ((0 : Int) < 12)
    ∧ laxPos "3" = true ∧ laxPos "60" = true
    ∧ resolveOptions "3" "60" "12" =
        Except.ok ({ gasLimit := parseIntJS "3", gasPrice := 12 * 1000000000 }, parseIntJS "60")
    ∧ (niiRun optsW envAllOk).optsUsed.all (fun o => o == optsW) = true :=
  ⟨by decide, by decide, by decide, by decide,
   (gas_policy_resolver "3" "60" "12").2.1 12 (by decide) (by decide) (by decide) (by decide),
   (gas_policy_resolver "3" "60" "12").2.2 optsW envAllOk⟩

/-! ## C8 — the range normalizer -/

/-- C8 counterexample: nothing enforces `last ≥ first` — the input `"5-2"`
is accepted and yields the range (5, 2). -/
theorem range_counterexample :
    parseRange "5-2" = Except.ok (5, 2) ∧ ¬ ((5 : Int) ≤ 2) := by
  refine ⟨by decide, by decide⟩

/-- C8 as amended: every accepted range has both bounds non-negative (each
the `parseInt` prefix-parse of its dash-separated part), a dash-free index
string `n` yields `(n, n)`, and a first bound with no parseable integer is
rejected with the range error — but `last ≥ first` is not enforced. -/
theorem range_normalizer (s : String) :
    (∀ f l : Int, parseRange s = Except.ok (f, l) →
        0 ≤ f ∧ 0 ≤ l ∧ parseIntJS (firstPart s) = some f
        ∧ parseIntJS (lastPart s) = some l)
    ∧ (splitString '-' s = [s] → ∀ n : Int, parseIntJS s = some n → 0 ≤ n →
        parseRange s = Except.ok (n, n))
    ∧ (parseIntJS (firstPart s) = none →
        parseRange s = Except.error "First block number must be a number higher than 0.") := by
  refine ⟨?_, ?_, ?_⟩
  · intro f l h
    unfold parseRange validateBlock at h
    rcases h1 : parseIntJS (firstPart s) with _ | i1
    · rw [h1] at h
      simp [Bind.bind, Except.bind] at h
    · rw [h1] at h
      rcases h2 : parseIntJS (lastPart s) with _ | i2
      · rw [h2] at h
        simp only [Bind.bind, Except.bind] at h
        split_ifs at h <;> simp_all
      · rw [h2] at h
        simp only [Bind.bind, Except.bind, Pure.pure, Except.pure] at h
        split_ifs at h with hi1 hi2 <;> simp_all
  · intro hs n hn h0
    have hf : firstPart s = s := by simp [firstPart, hs]
    have hl : lastPart s = s := by
      unfold lastPart
      rw [hs]
      simp [hf]
    unfold parseRange validateBlock
    rw [hf, hl, hn]
    simp only [Bind.bind, Except.bind, Pure.pure, Except.pure]
    split_ifs with hneg
    · omega
    · rfl
  · intro h
    unfold parseRange validateBlock
    rw [h]
    rfl

/-- Closed witness for C8's amended theorem at the single index `"3"`. -/
theorem range_normalizer_witness :
    splitString '-' "3" = ["3"] ∧ parseIntJS "3" = some 3 ∧ ((0 : Int) ≤ 3)
    ∧ parseRange "3" = Except.ok (3, 3) :=
  ⟨by decide, by decide, by decide,
   (range_normalizer "3").2.1 (by decide) 3 (by decide) (by decide)⟩

/-! ## C9 — zero amounts are rejected before any side effect -/

/-- C9: for every decimals count, normalizing the amount string `"0"` fails
with `ZeroAmount`, and the deposit handler rejects it before the provider —
the only gateway to the network — is instantiated. -/
theorem zero_amount_rejected (d : Nat) :
    normalize "0" d = Except.error NormErr.zeroAmount
    ∧ depositStart "0" d = (some NormErr.zeroAmount, false) := by
  have hp : parseDecimal "0" = some (0, 0, 0) := by decide
  have h : parseUnits "0" d = Except.ok 0 := by
    unfold parseUnits
    rw [hp]
    simp
  constructor
  · unfold normalize
    rw [h]
    simp
  · unfold depositStart normalize
    rw [h]
    simp

/-! ## C4 — exactness of the amount normalizer, and the legacy float path -/

set_option maxRecDepth 10000 in
/-- C4 counterexample: the legacy pay handler computes the amount of
`1.1` at 18 decimals as `1100000000000000128` base units — floating point
is used for an on-chain quantity and the result differs from the exact
`1.1·10^18 = 1100000000000000000`. -/
theorem legacy_pay_float_counterexample :
    part000Amount "1.1" 18 = some ⟨1100000000000000128, 1⟩
    ∧ (1100000000000000128 : ℚ) ≠ 11 / 10 * 10 ^ 18 := by
  refine ⟨by decide, by norm_num⟩

set_option maxRecDepth 10000 in
/-- C4 as amended: the current normalizer (`parseUnits`, pay.js line 20) is
exact — every accepted decimal amount yields precisely `a·10^d` — but the
repository's legacy pay handler (`part_000` line 19) computes the amount in
binary floating point, whose value differs from the exact one already at
`("1.1", 18)`. -/
theorem amount_normalizer_exact (s : String) (d w f k n : Nat) :
    (parseDecimal s = some (w, f, k) → parseUnits s d = Except.ok n →
        (n : ℚ) = decVal w f k * 10 ^ d)
    ∧ ((part000Amount "1.1" 18).map
        (fun q => pqEq q (pqMul (decValP 1 1 1) (pow10P 18)))) = some false := by
  constructor
  · intro hp hu
    have hred : parseUnits s d
        = if k ≤ d then Except.ok (w * 10 ^ d + f * 10 ^ (d - k))
          else Except.error NormErr.invalidAmount := by
      unfold parseUnits
      rw [hp]
    rw [hred] at hu
    by_cases hk : k ≤ d
    · rw [if_pos hk] at hu
      injection hu with hn
      subst hn
      unfold decVal
      have hpow : (10 : ℚ) ^ (d - k) * 10 ^ k = 10 ^ d := by
        rw [← pow_add]
        congr 1
        omega
      have h10 : ((10 : ℚ)) ^ k ≠ 0 := by positivity
      push_cast
      field_simp
      linear_combination (f : ℚ) * hpow
    · rw [if_neg hk] at hu
      cases hu
  · decide

/-- Closed witness for C4's amended theorem: depositing `1.1` of an
18-decimals currency yields exactly `1100000000000000000` base units. -/
theorem amount_normalizer_exact_witness :
    parseDecimal "1.1" = some (1, 1, 1)
    ∧ parseUnits "1.1" 18 = Except.ok 1100000000000000000
    ∧ ((1100000000000000000 : ℕ) : ℚ) = decVal 1 1 1 * 10 ^ 18 :=
  ⟨by decide, by decide,
   (amount_normalizer_exact "1.1" 18 1 1 1 1100000000000000000).1 (by decide) (by decide)⟩

end StriimCli
